import Mathlib

/-!
Shallow embedding of git-commit-pkg (src/bin.js) together with proofs about
its commit-policy workflow: the skip-marker gate, the version derivations,
the confirmation-menu construction, the menu cursor movement, the manifest
rewrite, the commit/push/error orchestration and the SIGINT recovery handler.

Effectful code is embedded as pure functions: file-system and process state
is passed explicitly, and the orchestration functions are rendered as
trace-producing functions over an explicit event alphabet.
-/

namespace GitCommitPkg

/-! ## Small JS-semantics helpers -/

/-- Numeric value of a decimal digit string, as JS unary plus computes it on a
string of digits (the only inputs it receives here are regex groups of d+). -/
def jsToNum (s : String) : Nat :=
  s.toList.foldl (fun a c => a * 10 + (c.toNat - 48)) 0

/-- Character for a single decimal digit. -/
def digitChar : Nat → Char
  | 0 => '0' | 1 => '1' | 2 => '2' | 3 => '3' | 4 => '4'
  | 5 => '5' | 6 => '6' | 7 => '7' | 8 => '8' | _ => '9'

/-- Decimal digits of n, most significant first; fuel bounds the recursion. -/
def natDigits : Nat → Nat → List Char
  | 0, _ => []
  | fuel + 1, n =>
    if n < 10 then [digitChar n]
    else natDigits fuel (n / 10) ++ [digitChar (n % 10)]

/-- Decimal rendering of a natural number, as JS template interpolation
renders a Number. -/
def natToStr (n : Nat) : String :=
  String.mk (natDigits (n + 1) n)

/-- Lower-case an ASCII character, as the i flag of a JS regex folds case. -/
def lowerChar (c : Char) : Char :=
  if 'A' ≤ c ∧ c ≤ 'Z' then Char.ofNat (c.toNat + 32) else c

/-- Test whether pat occurs at the head of cs. -/
def litHere : List Char → List Char → Bool
  | [], _ => true
  | _ :: _, [] => false
  | p :: ps, c :: cs => p == c && litHere ps cs

/-- Test whether pat occurs anywhere inside cs (regex search semantics). -/
def litSomewhere (pat : List Char) : List Char → Bool
  | [] => litHere pat []
  | c :: cs => litHere pat (c :: cs) || litSomewhere pat cs

/-! ## The skip-marker regex

Line 139 of src/bin.js tests the commit message against
/\[(skip ci|ci skip)]/i: a case-insensitive search, anywhere in the
message, for the literal bracketed forms. -/

/-- Embedding of the test /\[(skip ci|ci skip)]/i.test(msg). -/
def skipCiTest (msg : String) : Bool :=
  let low := msg.toList.map lowerChar
  litSomewhere "[skip ci]".toList low || litSomewhere "[ci skip]".toList low

/-! ## The version regex

Line 155-157 of src/bin.js:
  pkg.version.match(/(\d+)\.(\d+)\.(\d+)(?:-(alpha|beta)\.(\d+))?/)
destructured into [vOriginal, vMajor, vMinor, vPatch, vPre, vPreV].
The regex is unanchored: match searches for the leftmost position at which
the pattern matches. Groups are strings; the optional prerelease group
yields undefined (here: none) when it does not participate. -/

structure MatchResult where
  vOriginal : String
  vMajor : String
  vMinor : String
  vPatch : String
  vPre : Option String
  vPreV : Option String
deriving Repr, DecidableEq

/-- Consume a nonempty run of decimal digits (regex d+), greedily. -/
def digitRun (cs : List Char) : Option (List Char × List Char) :=
  let p := cs.span (fun c => c.isDigit)
  if p.1.isEmpty then none else some p

/-- Consume the literal pat, returning the remainder. -/
def litDrop (pat cs : List Char) : Option (List Char) :=
  if litHere pat cs then some (cs.drop pat.length) else none

/-- Attempt the optional group (?:-(alpha|beta)\.(\d+)) at cs, returning the
tag group, the number group and the remainder when it participates. -/
def preGroupHere (cs : List Char) : Option (List Char × List Char × List Char) := do
  let r1 ← litDrop ['-'] cs
  let (tag, r2) ←
    match litDrop "alpha".toList r1 with
    | some r => some ("alpha".toList, r)
    | none =>
      match litDrop "beta".toList r1 with
      | some r => some ("beta".toList, r)
      | none => none
  let r3 ← litDrop ['.'] r2
  let (num, r4) ← digitRun r3
  pure (tag, num, r4)

/-- Attempt the whole pattern at the head of cs. Failure of the optional
prerelease group never fails the match (the regex backtracks past it). -/
def matchHere (cs : List Char) : Option (MatchResult × List Char) := do
  let (maj, r1) ← digitRun cs
  let r2 ← litDrop ['.'] r1
  let (mino, r3) ← digitRun r2
  let r4 ← litDrop ['.'] r3
  let (pat, r5) ← digitRun r4
  match preGroupHere r5 with
  | some (tag, num, r6) =>
    pure (⟨String.mk (cs.take (cs.length - r6.length)),
           String.mk maj, String.mk mino, String.mk pat,
           some (String.mk tag), some (String.mk num)⟩, r6)
  | none =>
    pure (⟨String.mk (cs.take (cs.length - r5.length)),
           String.mk maj, String.mk mino, String.mk pat, none, none⟩, r5)

/-- Search for the leftmost match of the pattern (unanchored JS match). -/
def searchVersion : List Char → Option MatchResult
  | [] => none
  | c :: cs =>
    match matchHere (c :: cs) with
    | some (r, _) => some r
    | none => searchVersion cs

/-- Embedding of pkg.version.match(/(\d+)\.(\d+)\.(\d+)(?:-(alpha|beta)\.(\d+))?/). -/
def matchVersion (s : String) : Option MatchResult :=
  searchVersion s.toList

/-! ## Derived versions

Lines 158-167 of src/bin.js. Components are the regex groups (strings);
JS template interpolation keeps the group text, unary plus converts to a
number where the component is incremented. An absent vPre interpolates as
the text undefined; vPreV is a truthy nonempty digit string whenever the
prerelease group participated. -/

/-- Embedding of vBase (string interpolation of the three core groups). -/
def vBase (r : MatchResult) : String :=
  r.vMajor ++ "." ++ r.vMinor ++ "." ++ r.vPatch

/-- Interpolation of a possibly-undefined JS string. -/
def jsInterp : Option String → String
  | some s => s
  | none => "undefined"

def v.major (r : MatchResult) : String :=
  natToStr (jsToNum r.vMajor + 1) ++ ".0.0"

def v.minor (r : MatchResult) : String :=
  r.vMajor ++ "." ++ natToStr (jsToNum r.vMinor + 1) ++ ".0"

def v.patch (r : MatchResult) : String :=
  r.vMajor ++ "." ++ r.vMinor ++ "." ++ natToStr (jsToNum r.vPatch + 1)

def v.release (r : MatchResult) : String :=
  vBase r

/-- The conditional vPreV ? +vPreV + 1 : 1 of the source: a participating
d+ group is a nonempty string, hence truthy. -/
def v.prerelease (r : MatchResult) : String :=
  vBase r ++ "-" ++ jsInterp r.vPre ++ "." ++
    natToStr (match r.vPreV with
              | some s => jsToNum s + 1
              | none => 1)

def v.beta (r : MatchResult) : String :=
  vBase r ++ "-beta.1"

/-- Embedding of isPre = !!vPre. -/
def isPre (r : MatchResult) : Bool :=
  r.vPre.isSome

/-! ## The startup decision

Lines 139 and 232-239 of src/bin.js, in source order:
  if (/\[(skip ci|ci skip)]/i.test(msg)) process.exit(0);
  ...
  if (JSON.parse(await git.show(["main:package.json"])).version !== pkg.version)
    await commit();
  else printOptions("Version ...", mainOptions);
The skip-marker test runs first; only when it does not match is the
manifest version compared (by strict string inequality) with the version
recorded at the tip of the main branch. -/

inductive StartupAction where
  | exitProcess (code : Nat)
  | runCommit
  | showMenu
deriving Repr, DecidableEq

/-- Embedding of the top-level gate: commit message, working manifest
version, and the version at main:package.json, in that order. -/
def startupAction (msg pkgVersion tipVersion : String) : StartupAction :=
  if skipCiTest msg then .exitProcess 0
  else if tipVersion ≠ pkgVersion then .runCommit
  else .showMenu

/-! ## The manifest and updateVersion

Lines 144-153 of src/bin.js: updateVersion assigns pkg.version = version on
the object parsed from package.json and rewrites the file with
JSON.stringify(pkg, null, tab) plus a newline; the file content is
determined by the object, so the embedding works on the parsed object.
An object is an ordered list of fields; JS property assignment overwrites
the value in place when the key exists and appends the key otherwise. -/

inductive JsonVal where
  | str (s : String)
  | num (n : Int)
  | boolean (b : Bool)
  | null
  | arr (xs : List JsonVal)
  | obj (fields : List (String × JsonVal))

abbrev Manifest := List (String × JsonVal)

/-- JS property assignment on a parsed JSON object (keys are unique after
JSON.parse): overwrite in place, or append when absent. -/
def setProp (k : String) (val : JsonVal) : Manifest → Manifest
  | [] => [(k, val)]
  | (k1, v1) :: rest =>
    if k1 = k then (k, val) :: rest else (k1, v1) :: setProp k val rest

/-- Property lookup on a parsed JSON object. -/
def getProp (k : String) : Manifest → Option JsonVal
  | [] => none
  | (k1, v1) :: rest => if k1 = k then some v1 else getProp k rest

/-- Embedding of updateVersion: pkg.version = version, then the manifest
file is rewritten as the serialization of the updated object. -/
def updateVersion (version : String) (pkg : Manifest) : Manifest :=
  setProp "version" (.str version) pkg

/-! ## Menu options

Lines 169-198 of src/bin.js. The entries of the mainOptions array literal
are either option tuples [label, action, preview?] or the booleans produced
by the guards isPre && ... and isPre || ...; .filter(Boolean) keeps every
truthy element, which includes the literal true that isPre || skipCiOption
evaluates to on a prerelease version. -/

inductive ActionId where
  | updateTo (version : String)
  | skipCi
  | cancel
deriving Repr, DecidableEq

structure MOption where
  label : String
  action : ActionId
  preview : Option String
deriving Repr, DecidableEq

/-- An element of the mainOptions array literal before filtering: an option
tuple or a leftover boolean from a short-circuited guard. -/
inductive Entry where
  | opt (o : MOption)
  | jsBool (b : Bool)
deriving Repr, DecidableEq

/-- Truthiness used by .filter(Boolean): arrays are truthy. -/
def entryTruthy : Entry → Bool
  | .opt _ => true
  | .jsBool b => b

/-- Embedding of skipCiOption (its action rewrites the message). -/
def skipCiOption : Entry :=
  .opt ⟨"skip ci", .skipCi, none⟩

/-- Embedding of the mainOptions array literal, element by element, as a
function of the regex match of the current version. -/
def mainOptionsRaw (r : MatchResult) : List Entry :=
  [ if isPre r then .opt ⟨"release", .updateTo (v.release r), some (v.release r)⟩
    else .jsBool false,
    if isPre r then .opt ⟨"prerelease", .updateTo (v.prerelease r), some (v.prerelease r)⟩
    else .jsBool false,
    if isPre r && (r.vPre == some "alpha") then
      .opt ⟨"prerelease - beta", .updateTo (v.beta r), some (v.beta r)⟩
    else .jsBool false,
    if isPre r then skipCiOption else .jsBool false,
    .opt ⟨"patch release", .updateTo (v.patch r), some (v.patch r)⟩,
    .opt ⟨"minor release", .updateTo (v.minor r), some (v.minor r)⟩,
    .opt ⟨"major release", .updateTo (v.major r), some (v.major r)⟩,
    if isPre r then .jsBool true else skipCiOption,
    .opt ⟨"cancel", .cancel, none⟩ ]

/-- Embedding of mainOptions = [...].filter(Boolean). -/
def mainOptions (r : MatchResult) : List Entry :=
  (mainOptionsRaw r).filter entryTruthy

/-- Test whether the filtered option list holds an option labeled l. -/
def hasLabel (es : List Entry) (l : String) : Bool :=
  es.any (fun e =>
    match e with
    | .opt o => o.label == l
    | .jsBool _ => false)

/-! ## Menu cursor movement

Lines 200-220 of src/bin.js. The index arithmetic of moveMenuCursor:
currIndex += step; a result of -1 wraps to length - 1 and a result of
length wraps to 0 (the further adjustment of step only moves the terminal
cursor). Indices are JS numbers, so the embedding uses Int. -/

/-- Embedding of the currIndex update of moveMenuCursor for an option list
of the given length. -/
def moveMenuCursor (length : Nat) (currIndex step : Int) : Int :=
  let next := currIndex + step
  if next = -1 then (length : Int) - 1
  else if next = (length : Int) then 0
  else next

/-! ## The commit orchestration as traces

Lines 57-108 and 244-270 of src/bin.js. Each awaited side effect of the
orchestration functions becomes an event; a function body becomes the list
of events it performs, in program order. The outcome of the git.commit
invocation is a parameter (true: the promise resolves; false: it rejects
and the catch block runs onCommitError). -/

inductive Ev where
  | setCommitting (b : Bool)
  | writeMarker
  | gitCommitInvoke
  | unlinkMarker
  | unlinkIndexLock
  | printMsg (s : String)
  | openMenu (title : String) (labels : List String)
  | setInputProcessing (b : Bool)
  | exitProcess (code : Nat)
deriving Repr, DecidableEq

/-- Embedding of printOptions: prints the menu and re-enables input. -/
def printOptionsEv (title : String) (labels : List String) : List Ev :=
  [.openMenu title labels, .setInputProcessing true]

/-- Embedding of onCommitError: print the error, open the retry menu. -/
def onCommitErrorEv (errText : String) : List Ev :=
  .printMsg errText :: printOptionsEv "An error occurred, what to do?" ["try again", "exit"]

/-- Embedding of openPushMenu: printOptions, then inputProcessing is set
once more by line 107. -/
def openPushMenuEv : List Ev :=
  printOptionsEv "Make a push?" ["no", "yes"] ++ [.setInputProcessing true]

/-- Embedding of commit (lines 70-86): set the committing flag, write the
marker file, invoke git.commit; on resolution unlink the marker, clear the
flag, print the summary and open the push menu; on rejection run
onCommitError and return. -/
def commitEv (ok : Bool) : List Ev :=
  [.setCommitting true, .writeMarker, .gitCommitInvoke] ++
    (if ok then
      [.unlinkMarker, .setCommitting false, .printMsg "commit summary"] ++ openPushMenuEv
     else onCommitErrorEv "commit error")

/-- Action of the try-again entry of the error menu (line 66): it is the
commit function itself. -/
def errorMenuTryAgain (ok : Bool) : List Ev :=
  commitEv ok

/-- Action of the exit entry of the error menu (line 67): unlink the marker
file, then exit with status 1. -/
def errorMenuExit : List Ev :=
  [.unlinkMarker, .exitProcess 1]

/-- Marker-file state after a list of events, starting from m. -/
def markerAfter (m : Bool) : List Ev → Bool
  | [] => m
  | .writeMarker :: rest => markerAfter true rest
  | .unlinkMarker :: rest => markerAfter false rest
  | _ :: rest => markerAfter m rest

/-- Committing-flag state after a list of events, starting from b. -/
def committingAfter (b : Bool) : List Ev → Bool
  | [] => b
  | .setCommitting c :: rest => committingAfter c rest
  | _ :: rest => committingAfter b rest

/-- Test whether a trace terminates the process. -/
def hasExit (es : List Ev) : Bool :=
  es.any (fun e =>
    match e with
    | .exitProcess _ => true
    | _ => false)

/-- Sequencing of traces: events after a process.exit never happen. -/
def seqEv (a b : List Ev) : List Ev :=
  if hasExit a then a else a ++ b

/-- Count of git.commit invocations in a trace. -/
def countCommitInvokes (es : List Ev) : Nat :=
  (es.filter (fun e =>
    match e with
    | .gitCommitInvoke => true
    | _ => false)).length

/-- Embedding of the select branch of the stdin data handler (lines
255-260): on Enter or Space it clears inputProcessing, awaits the selected
option action, then awaits commit. The action trace is a parameter; ok is
the outcome of the commit invocation the handler performs afterwards. -/
def onSelectKey (actionTrace : List Ev) (ok : Bool) : List Ev :=
  seqEv (.setInputProcessing false :: actionTrace) (commitEv ok)

/-! ## The SIGINT recovery handler

Lines 110-135 of src/bin.js. The function is modelled on explicit state:
the committing flag and the existence of .git/index.lock and of the marker
file. The unlink of index.lock sits inside try/catch, so its rejection on
a missing file is swallowed; the unlink of the marker file is not guarded,
so on a missing marker the rejection propagates out of onTerminate and the
undo menu is never reached. -/

inductive TermOutcome where
  | exited (code : Nat)
  | undoMenuShown
  | rejected
deriving Repr, DecidableEq

/-- Embedding of onTerminate: the outcome together with the final existence
of (.git/index.lock, marker file). -/
def onTerminate (committing lockExists markerExists : Bool) :
    TermOutcome × Bool × Bool :=
  if committing then
    if markerExists then (.undoMenuShown, false, false)
    else (.rejected, false, false)
  else (.exited 0, lockExists, markerExists)

/-- Labels of the undo menu that onTerminate presents on the committing
branch; yes runs updateVersion vOriginal then exits 0, no exits 0. -/
def undoMenuLabels : List String :=
  ["yes", "no"]

/-- Example manifest used to instantiate the generic theorems. -/
def pkgExample : Manifest :=
  [("name", .str "git-commit-pkg"),
   ("version", .str "1.2.3-alpha.2"),
   ("license", .str "MIT")]

/-- Regex match of the example version 1.2.3-alpha.2. -/
def rAlphaExample : MatchResult :=
  ⟨"1.2.3-alpha.2", "1", "2", "3", some "alpha", some "2"⟩

/-! ## Helper lemmas about the manifest operations -/

theorem setProp_idem (k : String) (val : JsonVal) :
    ∀ l : Manifest, setProp k val (setProp k val l) = setProp k val l := by
  intro l
  induction l with
  | nil => simp [setProp]
  | cons hd tl ih =>
    obtain ⟨k1, v1⟩ := hd
    by_cases h : k1 = k
    · simp [setProp, h]
    · simp [setProp, h, ih]

theorem getProp_setProp_self (k : String) (val : JsonVal) :
    ∀ l : Manifest, getProp k (setProp k val l) = some val := by
  intro l
  induction l with
  | nil => simp [setProp, getProp]
  | cons hd tl ih =>
    obtain ⟨k1, v1⟩ := hd
    by_cases h : k1 = k
    · simp [setProp, h, getProp]
    · simp [setProp, h, getProp, ih]

theorem getProp_setProp_other (k k1 : String) (val : JsonVal) (h : k1 ≠ k) :
    ∀ l : Manifest, getProp k1 (setProp k val l) = getProp k1 l := by
  intro l
  induction l with
  | nil => simp [setProp, getProp, Ne.symm h]
  | cons hd tl ih =>
    obtain ⟨k2, v2⟩ := hd
    by_cases h2 : k2 = k
    · subst h2
      simp [setProp, getProp, Ne.symm h]
    · simp [setProp, getProp, h2, ih]

/-! ## Claim theorems -/

/-- C1: the skip-marker regex matches the bracketed forms case-insensitively
anywhere in the message and rejects the bracket-less form; however, on a
message carrying the marker the startup flow calls process.exit(0) and never
reaches the commit invocation, for any pair of manifest and branch-tip
versions, contradicting the claim that it proceeds straight to commit. -/
theorem skip_marker_exits_instead_of_commit :
    skipCiTest "fix: x [skip ci]" = true ∧
    skipCiTest "[CI SKIP] fix" = true ∧
    skipCiTest "skip ci" = false ∧
    startupAction "fix: x [skip ci]" "1.0.0" "1.0.0" = .exitProcess 0 ∧
    startupAction "[CI SKIP] fix" "1.0.0" "1.0.0" = .exitProcess 0 ∧
    StartupAction.exitProcess 0 ≠ .runCommit := by
  decide

/-- C5: with no skip marker in the message, a manifest version differing
from the branch-tip version does go straight to the commit invocation with
no menu; but a message carrying the skip marker makes the program exit with
status 0 before the version comparison even runs, so the decision is not
independent of the message content. -/
theorem version_change_gate :
    startupAction "docs: update readme" "1.0.1" "1.0.0" = .runCommit ∧
    startupAction "docs: update readme [skip ci]" "1.0.1" "1.0.0" = .exitProcess 0 ∧
    StartupAction.exitProcess 0 ≠ .runCommit := by
  decide

/-- C6: the derived versions match the examples of the spec: from 1.2.3 the
patch, minor and major derivations give 1.2.4, 1.3.0 and 2.0.0; from
1.2.3-alpha.2 the prerelease, release and beta derivations give
1.2.3-alpha.3, 1.2.3 and 1.2.3-beta.1. -/
theorem version_derivations :
    (matchVersion "1.2.3").map v.patch = some "1.2.4" ∧
    (matchVersion "1.2.3").map v.minor = some "1.3.0" ∧
    (matchVersion "1.2.3").map v.major = some "2.0.0" ∧
    (matchVersion "1.2.3-alpha.2").map v.prerelease = some "1.2.3-alpha.3" ∧
    (matchVersion "1.2.3-alpha.2").map v.release = some "1.2.3" ∧
    (matchVersion "1.2.3-alpha.2").map v.beta = some "1.2.3-beta.1" := by
  decide

/-- C7: the menu cursor wraps circularly at both ends: for any nonempty
option list of length n, an up step at index 0 lands on n - 1 and a down
step at index n - 1 lands on 0. -/
theorem menu_wraparound (n : Nat) (h : 0 < n) :
    moveMenuCursor n 0 (-1) = (n : Int) - 1 ∧
    moveMenuCursor n ((n : Int) - 1) 1 = 0 := by
  constructor
  · simp [moveMenuCursor]
  · have h1 : ((n : Int) - 1) + 1 = (n : Int) := by ring
    have h2 : ((n : Int) - 1) + 1 ≠ -1 := by omega
    simp [moveMenuCursor, h1, h2]

/-- C7 witness: with three options, up at index 0 gives 2 and down at index
2 gives 0. -/
theorem menu_wraparound_witness :
    0 < 3 ∧ moveMenuCursor 3 0 (-1) = 2 ∧ moveMenuCursor 3 2 1 = 0 := by
  refine ⟨by decide, ?_⟩
  have h := menu_wraparound 3 (by decide)
  exact ⟨h.1, h.2⟩

/-- C2 counterexample: on the prerelease version 1.2.3-alpha.2 the filtered
option list still holds the plain bump options patch release, minor release
and major release, so the plain bumps are not restricted to versions
without a prerelease tag. -/
theorem bump_options_present_on_prerelease :
    (matchVersion "1.2.3-alpha.2").map (fun r => isPre r) = some true ∧
    (matchVersion "1.2.3-alpha.2").map
      (fun r => hasLabel (mainOptions r) "patch release") = some true ∧
    (matchVersion "1.2.3-alpha.2").map
      (fun r => hasLabel (mainOptions r) "minor release") = some true ∧
    (matchVersion "1.2.3-alpha.2").map
      (fun r => hasLabel (mainOptions r) "major release") = some true := by
  decide

/-- C2 amended: promote-to-beta is offered exactly when the current tag is
alpha, release and prerelease exactly when the current version carries a
prerelease tag, and the plain bump options patch, minor and major are
offered unconditionally, prerelease tag or not. -/
theorem main_options_construction (r : MatchResult) :
    (hasLabel (mainOptions r) "release" = true ↔ isPre r = true) ∧
    (hasLabel (mainOptions r) "prerelease" = true ↔ isPre r = true) ∧
    (hasLabel (mainOptions r) "prerelease - beta" = true ↔ r.vPre = some "alpha") ∧
    hasLabel (mainOptions r) "patch release" = true ∧
    hasLabel (mainOptions r) "minor release" = true ∧
    hasLabel (mainOptions r) "major release" = true := by
  obtain ⟨o, ma, mi, pa, pre, prev⟩ := r
  cases pre with
  | none =>
    simp [mainOptions, mainOptionsRaw, hasLabel, entryTruthy, skipCiOption, isPre]
  | some t =>
    by_cases ht : t = "alpha" <;>
      simp [mainOptions, mainOptionsRaw, hasLabel, entryTruthy, skipCiOption, isPre, ht]

/-- C4 counterexample: a SIGINT with the committing flag set while the
marker file is absent makes onTerminate reject (the unguarded unlink of the
marker file fails), so the undo menu is never shown: the absence of the
marker file is not tolerated. -/
theorem terminate_missing_marker_rejects :
    onTerminate true true false = (.rejected, false, false) ∧
    TermOutcome.rejected ≠ .undoMenuShown := by
  decide

/-- C4 amended: on a termination signal with the committing flag set, the
handler deletes the lock file tolerating its absence and deletes the marker
file, reaching the undo menu, provided the marker file exists; when the
marker file is absent its deletion fails and the rejection propagates
instead of the menu. With the flag clear the process exits with status 0
touching neither file. -/
theorem terminate_behavior (lockExists markerExists : Bool) :
    onTerminate true lockExists true = (.undoMenuShown, false, false) ∧
    onTerminate true lockExists false = (.rejected, false, false) ∧
    onTerminate false lockExists markerExists = (.exited 0, lockExists, markerExists) := by
  cases lockExists <;> cases markerExists <;> decide

/-- C3: in every run of the commit function the marker is written and the
committing flag set before the git.commit invocation; on the successful run
the marker is gone before the push menu opens; after a failed invocation
the marker is still present; the exit entry of the error menu deletes the
marker and ends with process.exit(1); and the try-again entry re-enters the
commit function, which writes the marker again before its invocation. -/
theorem commit_marker_lifecycle :
    (∀ ok : Bool, ∃ pre post, commitEv ok = pre ++ Ev.gitCommitInvoke :: post ∧
        markerAfter false pre = true ∧ committingAfter false pre = true) ∧
    (∃ pre post,
        commitEv true = pre ++ Ev.openMenu "Make a push?" ["no", "yes"] :: post ∧
        markerAfter false pre = false) ∧
    markerAfter false (commitEv false) = true ∧
    (markerAfter true errorMenuExit = false ∧
      errorMenuExit.getLast? = some (.exitProcess 1)) ∧
    (∀ ok : Bool, ∃ pre post,
        errorMenuTryAgain ok = pre ++ Ev.gitCommitInvoke :: post ∧
        markerAfter false pre = true) := by
  refine ⟨?_, ?_, ?_, ?_, ?_⟩
  · intro ok
    exact ⟨[.setCommitting true, .writeMarker],
           (if ok then
             [Ev.unlinkMarker, Ev.setCommitting false, Ev.printMsg "commit summary"] ++
               openPushMenuEv
            else onCommitErrorEv "commit error"),
           by cases ok <;> rfl, rfl, rfl⟩
  · exact ⟨[.setCommitting true, .writeMarker, .gitCommitInvoke, .unlinkMarker,
            .setCommitting false, .printMsg "commit summary"],
           [.setInputProcessing true, .setInputProcessing true], rfl, rfl⟩
  · rfl
  · exact ⟨rfl, rfl⟩
  · intro ok
    exact ⟨[.setCommitting true, .writeMarker],
           (if ok then
             [Ev.unlinkMarker, Ev.setCommitting false, Ev.printMsg "commit summary"] ++
               openPushMenuEv
            else onCommitErrorEv "commit error"),
           by cases ok <;> rfl, rfl⟩

/-- C9: after a selection the keystroke handler runs the chosen action trace
and then unconditionally the commit function, as long as the action did not
terminate the process; instantiated with the try-again action of the error
menu whose retried commit succeeds, the resulting trace invokes git.commit
twice. -/
theorem select_runs_action_then_commit (actionTrace : List Ev)
    (ok retryOk : Bool) (h : hasExit actionTrace = false) :
    onSelectKey actionTrace ok =
      .setInputProcessing false :: (actionTrace ++ commitEv ok) ∧
    countCommitInvokes (onSelectKey (errorMenuTryAgain true) retryOk) = 2 := by
  constructor
  · have hx : hasExit (Ev.setInputProcessing false :: actionTrace) = false := by
      simp [hasExit] at h ⊢
      exact h
    simp [onSelectKey, seqEv, hx]
  · cases retryOk <;> rfl

/-- C9 witness: a plain print action followed by a successful commit, and
the doubled invocation count after a successful retried commit. -/
theorem select_runs_action_then_commit_witness :
    onSelectKey [Ev.printMsg "note"] true =
      .setInputProcessing false :: ([Ev.printMsg "note"] ++ commitEv true) ∧
    countCommitInvokes (onSelectKey (errorMenuTryAgain true) true) = 2 :=
  select_runs_action_then_commit [Ev.printMsg "note"] true true rfl

/-- C8: for a manifest whose version string is exactly the matched version
pattern, the undo action updateVersion vOriginal leaves the version field
at the pre-derivation original after one call, and a second call produces
the very same manifest. -/
theorem undo_idempotent (pkg : Manifest) (s : String) (r : MatchResult)
    (_hv : getProp "version" pkg = some (.str s))
    (_hm : matchVersion s = some r)
    (hfull : r.vOriginal = s) :
    getProp "version" (updateVersion r.vOriginal pkg) = some (.str s) ∧
    updateVersion r.vOriginal (updateVersion r.vOriginal pkg) =
      updateVersion r.vOriginal pkg := by
  constructor
  · rw [hfull]
    exact getProp_setProp_self "version" (.str s) pkg
  · exact setProp_idem "version" (.str r.vOriginal) pkg

/-- C8 witness: the undo action on the example manifest at version
1.2.3-alpha.2 restores that version and is a no-op the second time. -/
theorem undo_idempotent_witness :
    getProp "version" (updateVersion "1.2.3-alpha.2" pkgExample) =
      some (.str "1.2.3-alpha.2") ∧
    updateVersion "1.2.3-alpha.2" (updateVersion "1.2.3-alpha.2" pkgExample) =
      updateVersion "1.2.3-alpha.2" pkgExample :=
  undo_idempotent pkgExample "1.2.3-alpha.2" rAlphaExample rfl (by decide) rfl

/-- C10: updateVersion rewrites the manifest object so that the version
field holds the new version and every other key keeps exactly the value it
had, whatever version string is written. -/
theorem updateVersion_frame (pkg : Manifest) (ver : String) :
    getProp "version" (updateVersion ver pkg) = some (.str ver) ∧
    ∀ k : String, k ≠ "version" →
      getProp k (updateVersion ver pkg) = getProp k pkg := by
  constructor
  · exact getProp_setProp_self "version" (.str ver) pkg
  · intro k hk
    exact getProp_setProp_other "version" k (.str ver) hk pkg

/-- C10 witness: rewriting the example manifest to 9.9.9 sets the version
field and leaves the name field untouched. -/
theorem updateVersion_frame_witness :
    getProp "version" (updateVersion "9.9.9" pkgExample) = some (.str "9.9.9") ∧
    getProp "name" (updateVersion "9.9.9" pkgExample) = getProp "name" pkgExample :=
  ⟨(updateVersion_frame pkgExample "9.9.9").1,
   (updateVersion_frame pkgExample "9.9.9").2 "name" (by decide)⟩

end GitCommitPkg
